import Mathlib

/-!
Verification of the time-series anomaly-detection pipeline
(`src/data/loader.py`, `src/analysis/metrics.py`, `src/analysis/anomaly.py`).

Shallow embedding conventions:
* A timestamp at minute granularity (column `MINUTO`) is a `Nat`
  (minutes since an arbitrary epoch); `pd.date_range(min, max, freq='T')`
  is the inclusive arithmetic range of those naturals.
* Operator codes (`CD_OPR`) are `String`s, counts (`QTD`) are `Int`s,
  exactly as the loader types them.
* Python float values flowing through the metric table are modelled as
  `PyF`: NaN, +inf, -inf, or a finite value (an exact rational; float
  rounding is idealized away, which is irrelevant to the claims proved
  here).  `calcula_cv` needs a real-valued square root, so its result is
  a real number (or the +inf sentinel).
* `pandas.DataFrame.reindex` raises `ValueError` when the frame's index
  holds duplicate labels; that failure path (uncaught in `extrair_dados`)
  is modelled by `Option`, with `none` for the raised exception.
-/

/-- One row of the typed observation table built by `extrair_dados` after
parsing: `MINUTO` (minutes since epoch), `CD_OPR`, `QTD`. -/
structure Obs where
  minuto : Nat
  cd_opr : String
  qtd : Int
deriving DecidableEq, Repr

/-- The `(MINUTO, CD_OPR)` index of the observation table
(`df.set_index(['MINUTO', 'CD_OPR'])`). -/
def obsKeys (df : List Obs) : List (Nat × String) :=
  df.map (fun r => (r.minuto, r.cd_opr))

/-- `pandas.Series.unique`: distinct values in order of first appearance. -/
def uniqueFirst (l : List String) : List String :=
  l.reverse.dedup.reverse

/-- Minimum of a list of naturals (`df['MINUTO'].min()`); meaningful on
nonempty lists, which is the only way the source reaches it. -/
def natMinD (l : List Nat) : Nat :=
  l.foldl min (l.headD 0)

/-- Maximum of a list of naturals (`df['MINUTO'].max()`). -/
def natMaxD (l : List Nat) : Nat :=
  l.foldl max (l.headD 0)

/-- `pd.date_range(start=min_time, end=max_time, freq='T')`: every minute
of the global span, inclusive at both ends. -/
def todosMinutos (df : List Obs) : List Nat :=
  (List.range (natMaxD (df.map (·.minuto)) - natMinD (df.map (·.minuto)) + 1)).map
    (fun k => k + natMinD (df.map (·.minuto)))

/-- `reindex` row lookup followed by `fillna(0)`: the `QTD` of the unique
row of `df` keyed `(t, op)`, or `0` when that pair is absent. -/
def lookupQtd (df : List Obs) (t : Nat) (op : String) : Int :=
  match df.find? (fun r => r.minuto == t && r.cd_opr == op) with
  | some r => r.qtd
  | none => 0

/-- Densification stage of `extrair_dados` (`loader.py` lines 78-99): the
`MultiIndex.from_product` cross product of all minutes in the global span
with all distinct operators, reindexed against the parsed table and
zero-filled.  `none` models the two ways this code yields no dense table:
an empty parsed table (guarded earlier in the source), and the
`ValueError` that `reindex` raises when `(MINUTO, CD_OPR)` holds
duplicates. -/
def extrair_dados_dense (df : List Obs) : Option (List Obs) :=
  if df.isEmpty then none
  else if (obsKeys df).Nodup then
    some ((todosMinutos df).flatMap (fun t =>
      (uniqueFirst (df.map (·.cd_opr))).map (fun op =>
        { minuto := t, cd_opr := op, qtd := lookupQtd df t op })))
  else none

/-- `numpy.mean` over an exact-rational series. -/
def npMean (xs : List ℚ) : ℚ :=
  xs.sum / xs.length

/-- `numpy.var` with `ddof=0` (the variance `numpy.std` takes the square
root of): mean of squared deviations from the mean. -/
def npVar (xs : List ℚ) : ℚ :=
  (xs.map (fun x => (x - npMean xs) ^ 2)).sum / xs.length

/-- Result of `calcula_cv`: either the `numpy.inf` sentinel or a finite
real value. -/
inductive CVal where
  | inf : CVal
  | val : ℝ → CVal

/-- `calcula_cv` (`metrics.py` lines 10-16): coefficient of variation of
the series, `(std / mean) * 100` with `numpy` population standard
deviation, and `numpy.inf` when the mean is zero. -/
noncomputable def calcula_cv (serie : List ℚ) : CVal :=
  if npMean serie = 0 then CVal.inf
  else CVal.val (Real.sqrt ((npVar serie : ℚ) : ℝ) / ((npMean serie : ℚ) : ℝ) * 100)

/-- `numpy.diff`: successive differences, length one less than the input. -/
def npDiff (xs : List ℚ) : List ℚ :=
  (xs.zip xs.tail).map (fun p => p.2 - p.1)

/-- `numpy.all(d == d[0])`: every entry equals the first one (vacuously
true on the empty list, as for `numpy.all` of an empty comparison). -/
def allEqHead (d : List ℚ) : Bool :=
  d.all (fun x => x == d.headD 0)

/-- `statsmodels.tsa.stattools.acovf` with `adjusted=False`: the lag-`k`
autocovariance `(1/n) * sum of d_i * d_(i+k)` of the demeaned series. -/
def acovf (xs : List ℚ) (k : Nat) : ℚ :=
  let d := xs.map (fun x => x - npMean xs)
  ((d.zip (d.drop k)).map (fun p => p.1 * p.2)).sum / xs.length

/-- `statsmodels.tsa.stattools.acf` with `fft=False` at one lag:
autocovariance normalized by the lag-0 autocovariance. -/
def acfAt (xs : List ℚ) (k : Nat) : ℚ :=
  acovf xs k / acovf xs 0

/-- `numpy.max` of a list (meaningful on nonempty input). -/
def npMax (l : List ℚ) : ℚ :=
  l.foldl max (l.headD 0)

/-- `numpy.argmax`: index of the first occurrence of the maximum. -/
def npArgmax (l : List ℚ) : Nat :=
  l.findIdx (fun x => x == npMax l)

/-- `calcula_autocorr_diff` (`metrics.py` lines 18-52): maximum absolute
autocorrelation of the first-differenced series over lags
`1..min(nlags, len(diff)-1)`, with its 1-indexed lag; `(0, 0)` when the
series is too short or its first difference is constant. -/
def calcula_autocorr_diff (serie : List ℚ) (nlags : Nat) : ℚ × Nat :=
  if serie.length < 2 then (0, 0)
  else
    let diff_serie := npDiff serie
    if diff_serie.length < 2 ∨ allEqHead diff_serie then (0, 0)
    else
      let m := min nlags (diff_serie.length - 1)
      let acf_abs := (List.range m).map (fun i => |acfAt diff_serie (i + 1)|)
      if acf_abs.length = 0 then (0, 0)
      else (npMax acf_abs, npArgmax acf_abs + 1)

/-- `numpy.median` (also `pandas.Series.median` on a NaN-free column):
middle element of the sorted list, or the average of the two middle
elements for even length. -/
def medianQ (l : List ℚ) : ℚ :=
  let s := l.insertionSort (· ≤ ·)
  if l.length % 2 = 1 then s.getD (l.length / 2) 0
  else (s.getD (l.length / 2 - 1) 0 + s.getD (l.length / 2) 0) / 2

/-- The normal-consistency constant `scipy`/`statsmodels` divide by in
`robust.mad`: the float64 value of the standard normal quantile at 3/4. -/
def madNormConst : ℚ := 0.6744897501960817

/-- `calcula_mad` (`metrics.py` lines 55-57), i.e.
`statsmodels.robust.mad`: median absolute deviation from the median,
scaled by the normal-consistency constant. -/
def calcula_mad (serie : List ℚ) : ℚ :=
  medianQ (serie.map (fun x => |x - medianQ serie|)) / madNormConst

/-- A Python float as it flows through the metric table: NaN, one of the
two infinities, or a finite value. -/
inductive PyF where
  | nan : PyF
  | pinf : PyF
  | ninf : PyF
  | fin : ℚ → PyF
deriving DecidableEq, Repr

/-- Whether a float is finite (neither NaN nor an infinity). -/
def PyF.isFin : PyF → Bool
  | .fin _ => true
  | _ => false

/-- The rational carried by a finite float (junk `0` otherwise). -/
def PyF.finVal : PyF → ℚ
  | .fin q => q
  | _ => 0

/-- IEEE-754 multiplication on the absorbing elements: NaN propagates,
`inf * 0` is NaN, infinities multiply by sign, finite values multiply
exactly. -/
def pyMul : PyF → PyF → PyF
  | .nan, _ => .nan
  | _, .nan => .nan
  | .pinf, .pinf => .pinf
  | .pinf, .ninf => .ninf
  | .ninf, .pinf => .ninf
  | .ninf, .ninf => .pinf
  | .pinf, .fin q => if 0 < q then .pinf else if q < 0 then .ninf else .nan
  | .fin q, .pinf => if 0 < q then .pinf else if q < 0 then .ninf else .nan
  | .ninf, .fin q => if 0 < q then .ninf else if q < 0 then .pinf else .nan
  | .fin q, .ninf => if 0 < q then .ninf else if q < 0 then .pinf else .nan
  | .fin a, .fin b => .fin (a * b)

/-- One row of the float-valued metric `DataFrame` that
`detectar_anomalias` receives and mutates: the `calcular_metricas`
columns plus the two columns the detector may add (`none` models an
absent column). -/
structure MetRow where
  cd_opr : String
  autocorr_max_diff : PyF
  autocorr_lag : Nat
  cv : PyF
  score_anomaly : Option PyF
  anormal : Option Bool
deriving DecidableEq, Repr

/-- `df_metricas['score_anomaly'] = df_metricas['cv'] *
df_metricas['autocorr_max_diff']` on one row. -/
def addScore (r : MetRow) : MetRow :=
  { r with score_anomaly := some (pyMul r.cv r.autocorr_max_diff) }

/-- `replace([np.inf, -np.inf], np.nan)` on one float value. -/
def replaceInfNan : PyF → PyF
  | .pinf => .nan
  | .ninf => .nan
  | v => v

/-- `df_metricas.replace([np.inf, -np.inf], np.nan, inplace=True)` on one
row: every float column is rewritten (`cd_opr` is a string column and
`autocorr_lag` an integer column, neither can hold an infinity). -/
def replaceRow (r : MetRow) : MetRow :=
  { r with autocorr_max_diff := replaceInfNan r.autocorr_max_diff,
           cv := replaceInfNan r.cv,
           score_anomaly := r.score_anomaly.map replaceInfNan }

/-- Row-retention test of
`df_metricas.dropna(subset=['score_anomaly'], inplace=True)`. -/
def scoreNotNan (r : MetRow) : Bool :=
  !(r.score_anomaly == some PyF.nan)

/-- The finite score carried by a row kept after `dropna`. -/
def rowScoreQ (r : MetRow) : ℚ :=
  PyF.finVal (r.score_anomaly.getD (PyF.fin 0))

/-- `detectar_anomalias` (`anomaly.py` lines 66-127) up to but excluding
the final `sort_values`: score assignment, inf replacement, NaN-row
removal, robust median/MAD statistics and classification.  The first
component is exactly the state the caller's `df_metricas` object is left
in (every step up to here mutates it in place; `sort_values` rebinds the
local name and only affects the returned frame).  The `Option ℚ`
statistics model the `np.nan, np.nan, np.nan` sentinels as `none`. -/
def detectar_core (df_metricas : List MetRow) (sigma_threshold : ℚ) :
    List MetRow × Option ℚ × Option ℚ × Option ℚ :=
  if df_metricas.isEmpty then ([], none, none, none)
  else
    let scored := df_metricas.map (fun r => replaceRow (addScore r))
    let valid := scored.filter scoreNotNan
    if valid.isEmpty then (valid, none, none, none)
    else
      let mediana := medianQ (valid.map rowScoreQ)
      let mad := calcula_mad (valid.map rowScoreQ)
      if mad = 0 then
        (valid.map (fun r => { r with anormal := some false }),
          some mediana, some mad, some mediana)
      else
        let limite_superior := mediana + sigma_threshold * mad
        (valid.map (fun r =>
            { r with anormal := some (decide (limite_superior < rowScoreQ r)) }),
          some mediana, some mad, some limite_superior)

/-- `detectar_anomalias`: the tuple the function returns, with the frame
sorted by `score_anomaly` in descending order. -/
def detectar_anomalias (df_metricas : List MetRow) (sigma_threshold : ℚ) :
    List MetRow × Option ℚ × Option ℚ × Option ℚ :=
  let res := detectar_core df_metricas sigma_threshold
  (res.1.insertionSort (fun a b => rowScoreQ b ≤ rowScoreQ a), res.2)

/-- The state of the caller's `df_metricas` object after
`detectar_anomalias` returns: all in-place mutations applied, no sorting
(for an empty input the early return leaves the caller's empty frame
untouched, which coincides with the `[]` of `detectar_core`). -/
def detectar_anomalias_caller (df_metricas : List MetRow) (sigma_threshold : ℚ) :
    List MetRow :=
  (detectar_core df_metricas sigma_threshold).1

/-- One row of the metric table assembled by
`calcular_metricas_por_processo` (its `cv` is real-valued, so this is
the exact-real counterpart of the float row `MetRow`). -/
structure MetricRecord where
  cd_opr : String
  autocorr_max_diff : ℚ
  autocorr_lag : Nat
  cv : CVal

/-- The per-operator series `grupo['QTD'].values` of
`calcular_metricas_por_processo`: the rows of one `CD_OPR`, ordered by
`MINUTO` (the `sort_values(['CD_OPR', 'MINUTO'])` before the groupby). -/
def groupSerie (dados : List Obs) (cd_opr : String) : List ℚ :=
  (((dados.filter (fun r => r.cd_opr == cd_opr)).insertionSort
      (fun a b => a.minuto ≤ b.minuto)).map (fun r => (r.qtd : ℚ)))

/-- `calcular_metricas_por_processo` (`anomaly.py` lines 24-62): group by
`CD_OPR` (pandas iterates groups in sorted key order), skip series
shorter than 10 points, and collect one `MetricRecord` per remaining
operator from `calcula_autocorr_diff` (the 360-lag default) and
`calcula_cv`. -/
noncomputable def calcular_metricas_por_processo (dados : List Obs) : List MetricRecord :=
  ((uniqueFirst (dados.map (·.cd_opr))).insertionSort (· ≤ ·)).filterMap (fun cd_opr =>
    let serie_temporal := groupSerie dados cd_opr
    if serie_temporal.length < 10 then none
    else
      some { cd_opr := cd_opr,
             autocorr_max_diff := (calcula_autocorr_diff serie_temporal 360).1,
             autocorr_lag := (calcula_autocorr_diff serie_temporal 360).2,
             cv := calcula_cv serie_temporal })

/-! ### Concrete tables used by the witnesses -/

/-- A two-row observation table with a one-minute gap. -/
def df1 : List Obs := [⟨0, "a", 1⟩, ⟨2, "a", 3⟩]

/-- The dense grid `extrair_dados` builds from `df1`. -/
def g1 : List Obs := [⟨0, "a", 1⟩, ⟨1, "a", 0⟩, ⟨2, "a", 3⟩]

/-- The anomaly score of a row, `cv * autocorr_max_diff`. -/
def scoreOf (r : MetRow) : PyF :=
  pyMul r.cv r.autocorr_max_diff

/-- Whether a row survives sanitization: its score is finite (neither
NaN nor an infinity, which `replace`/`dropna` would remove). -/
def goodRow (r : MetRow) : Bool :=
  (scoreOf r).isFin

/-- The per-row transformation applied before `dropna`: score column
assignment followed by the inf-to-NaN replacement. -/
def transRow (r : MetRow) : MetRow :=
  replaceRow (addScore r)

/-- The list of valid (finite) anomaly scores, in table order. -/
def validScores (df : List MetRow) : List ℚ :=
  (df.filter goodRow).map (fun r => (scoreOf r).finVal)

/-- Three-operator metric table with finite scores `1, 2, 10`. -/
def dfW : List MetRow :=
  [⟨"a", PyF.fin 1, 1, PyF.fin 1, none, none⟩,
   ⟨"b", PyF.fin 2, 1, PyF.fin 1, none, none⟩,
   ⟨"c", PyF.fin 10, 1, PyF.fin 1, none, none⟩]

/-- A dense all-zero (hence constant) ten-minute series for one
operator. -/
def dados10 : List Obs :=
  [⟨0, "p1", 0⟩, ⟨1, "p1", 0⟩, ⟨2, "p1", 0⟩, ⟨3, "p1", 0⟩, ⟨4, "p1", 0⟩,
   ⟨5, "p1", 0⟩, ⟨6, "p1", 0⟩, ⟨7, "p1", 0⟩, ⟨8, "p1", 0⟩, ⟨9, "p1", 0⟩]

/-- The single metric record computed from `dados10`. -/
noncomputable def rec10 : MetricRecord :=
  { cd_opr := "p1",
    autocorr_max_diff := (calcula_autocorr_diff (groupSerie dados10 "p1") 360).1,
    autocorr_lag := (calcula_autocorr_diff (groupSerie dados10 "p1") 360).2,
    cv := calcula_cv (groupSerie dados10 "p1") }

/-! ### Helper lemmas about the numeric primitives -/

/-- Every element of a list is bounded by a `foldl max` over it. -/
theorem le_foldl_max (l : List ℚ) (a : ℚ) :
    a ≤ l.foldl max a ∧ ∀ x ∈ l, x ≤ l.foldl max a := by
  induction l generalizing a with
  | nil => simp
  | cons h t ih =>
    refine ⟨le_trans (le_max_left a h) (ih (max a h)).1, ?_⟩
    intro x hx
    rcases List.mem_cons.mp hx with rfl | hx
    · exact le_trans (le_max_right a x) (ih (max a x)).1
    · exact (ih (max a h)).2 x hx

/-- A `foldl max` is either its seed or an element of the list. -/
theorem foldl_max_mem (l : List ℚ) (a : ℚ) :
    l.foldl max a = a ∨ l.foldl max a ∈ l := by
  induction l generalizing a with
  | nil => simp
  | cons h t ih =>
    rcases ih (max a h) with heq | hmem
    · rcases max_cases a h with ⟨hm, _⟩ | ⟨hm, _⟩
      · exact Or.inl (by rw [List.foldl_cons, heq, hm])
      · refine Or.inr ?_
        rw [List.foldl_cons, heq, hm]
        exact List.mem_cons_self _ _
    · exact Or.inr (List.mem_cons_of_mem _ hmem)

/-- `npMax` bounds every element. -/
theorem le_npMax {l : List ℚ} {x : ℚ} (hx : x ∈ l) : x ≤ npMax l :=
  (le_foldl_max l (l.headD 0)).2 x hx

/-- On a nonempty list, `npMax` is attained. -/
theorem npMax_mem {l : List ℚ} (h : l ≠ []) : npMax l ∈ l := by
  rcases foldl_max_mem l (l.headD 0) with heq | hmem
  · rw [npMax, heq]
    cases l with
    | nil => exact absurd rfl h
    | cons a t => exact List.mem_cons_self a t
  · exact hmem

/-- `npArgmax` of a nonempty list is a valid index pointing at the
maximum. -/
theorem npArgmax_spec {l : List ℚ} (h : l ≠ []) :
    npArgmax l < l.length ∧ l.getD (npArgmax l) 0 = npMax l := by
  have hex : ∃ x ∈ l, (x == npMax l) = true :=
    ⟨npMax l, npMax_mem h, beq_self_eq_true _⟩
  have hlt : l.findIdx (fun x => x == npMax l) < l.length :=
    List.findIdx_lt_length_of_exists hex
  refine ⟨hlt, ?_⟩
  have hp := @List.findIdx_getElem _ (fun x => x == npMax l) l hlt
  rw [npArgmax, List.getD_eq_getElem?_getD, List.getElem?_eq_getElem hlt]
  simpa using hp

/-- Length of a first difference: one less than the series. -/
theorem npDiff_length (xs : List ℚ) : (npDiff xs).length = xs.length - 1 := by
  simp [npDiff, List.length_zip, List.length_tail]

/-! ### C3: the coefficient-of-variation sentinel -/

/-- C3: on a nonempty series, `calcula_cv` returns the `+inf` sentinel
exactly on mean zero, returns `0` on a constant non-zero series, and
otherwise returns `(std / mean) * 100`. -/
theorem calcula_cv_spec (xs : List ℚ) (hne : xs ≠ []) :
    (npMean xs = 0 → calcula_cv xs = CVal.inf)
    ∧ (∀ c : ℚ, c ≠ 0 → xs = List.replicate xs.length c → calcula_cv xs = CVal.val 0)
    ∧ (npMean xs ≠ 0 →
        calcula_cv xs =
          CVal.val (Real.sqrt ((npVar xs : ℚ) : ℝ) / ((npMean xs : ℚ) : ℝ) * 100)) := by
  have hlen : (0 : ℚ) < xs.length := by
    exact_mod_cast Nat.pos_of_ne_zero (fun h0 => hne (List.length_eq_zero.mp h0))
  refine ⟨fun h0 => by simp [calcula_cv, h0], ?_, fun h0 => by simp [calcula_cv, h0]⟩
  intro c hc hconst
  have hmean : npMean xs = c := by
    rw [npMean, hconst]
    simp only [List.sum_replicate, List.length_replicate, nsmul_eq_mul]
    field_simp
  have hvar : npVar xs = 0 := by
    rw [npVar, hmean]
    conv_lhs => rw [hconst]
    simp [List.map_replicate]
  rw [calcula_cv, if_neg (by rw [hmean]; exact hc), hvar, hmean]
  norm_num

/-! ### C5: degenerate inputs of the differenced autocorrelation -/

/-- C5: a series of length below 2, or whose first difference is shorter
than 2 entries or constant, yields the `(0, 0)` sentinel. -/
theorem calcula_autocorr_diff_degenerate (serie : List ℚ) (nlags : Nat)
    (h : serie.length < 2 ∨ (npDiff serie).length < 2
        ∨ allEqHead (npDiff serie) = true) :
    calcula_autocorr_diff serie nlags = (0, 0) := by
  simp only [calcula_autocorr_diff]
  split_ifs with h1 h2 h3
  · rfl
  · rfl
  · rcases h with hA | hB
    · exact absurd hA h1
    · exact absurd (by simpa using hB) h2
  · rcases h with hA | hB
    · exact absurd hA h1
    · exact absurd (by simpa using hB) h2

/-- C5 witness: the strictly linear series `[0, 1, 2, 3]` has a constant
first difference and yields `(0, 0)`. -/
theorem calcula_autocorr_diff_degenerate_witness :
    allEqHead (npDiff [0, 1, 2, 3]) = true
    ∧ calcula_autocorr_diff [0, 1, 2, 3] 360 = (0, 0) :=
  ⟨by norm_num [allEqHead, npDiff],
    calcula_autocorr_diff_degenerate [0, 1, 2, 3] 360
      (Or.inr (Or.inr (by norm_num [allEqHead, npDiff])))⟩

/-- C3 witness: the constant non-zero series `[2, 2]` has coefficient of
variation `0`. -/
theorem calcula_cv_spec_witness : calcula_cv [2, 2] = CVal.val 0 :=
  (calcula_cv_spec [2, 2] (by simp)).2.1 2 (by norm_num) rfl

/-- Element `i` of a map over `List.range`. -/
theorem getD_map_range (f : Nat → ℚ) (m i : Nat) (h : i < m) :
    ((List.range m).map f).getD i 0 = f i := by
  rw [List.getD_eq_getElem?_getD, List.getElem?_map, List.getElem?_range h]
  rfl

/-! ### C4: the non-degenerate differenced autocorrelation -/

/-- C4: when the first difference has at least two entries and is not
constant, `calcula_autocorr_diff` returns the maximum absolute
autocorrelation of the differenced series over the 1-indexed lags
`1..min(nlags, len(diff)-1)`, paired with a lag attaining it. -/
theorem calcula_autocorr_diff_max (serie : List ℚ) (nlags : Nat)
    (hs : 2 ≤ serie.length) (hd : 2 ≤ (npDiff serie).length)
    (hc : allEqHead (npDiff serie) = false) (hn : 1 ≤ nlags) :
    (∀ k, 1 ≤ k → k ≤ min nlags ((npDiff serie).length - 1) →
        |acfAt (npDiff serie) k| ≤ (calcula_autocorr_diff serie nlags).1)
    ∧ 1 ≤ (calcula_autocorr_diff serie nlags).2
    ∧ (calcula_autocorr_diff serie nlags).2 ≤ min nlags ((npDiff serie).length - 1)
    ∧ |acfAt (npDiff serie) (calcula_autocorr_diff serie nlags).2|
        = (calcula_autocorr_diff serie nlags).1 := by
  have hm1 : 1 ≤ min nlags ((npDiff serie).length - 1) :=
    le_min hn (by omega)
  have hAlen : ((List.range (min nlags ((npDiff serie).length - 1))).map
      (fun i => |acfAt (npDiff serie) (i + 1)|)).length =
      min nlags ((npDiff serie).length - 1) := by
    simp
  have hres : calcula_autocorr_diff serie nlags =
      (npMax ((List.range (min nlags ((npDiff serie).length - 1))).map
          (fun i => |acfAt (npDiff serie) (i + 1)|)),
        npArgmax ((List.range (min nlags ((npDiff serie).length - 1))).map
          (fun i => |acfAt (npDiff serie) (i + 1)|)) + 1) := by
    simp only [calcula_autocorr_diff]
    rw [if_neg (by omega), if_neg (by simp [hc]; omega), if_neg (by rw [hAlen]; omega)]
  have hAne : ((List.range (min nlags ((npDiff serie).length - 1))).map
      (fun i => |acfAt (npDiff serie) (i + 1)|)) ≠ [] := by
    intro hnil
    rw [hnil] at hAlen
    simp at hAlen
    omega
  obtain ⟨hidx, hval⟩ := npArgmax_spec hAne
  rw [hAlen] at hidx
  have hgetD := getD_map_range (fun i => |acfAt (npDiff serie) (i + 1)|)
    (min nlags ((npDiff serie).length - 1))
    (npArgmax ((List.range (min nlags ((npDiff serie).length - 1))).map
      (fun i => |acfAt (npDiff serie) (i + 1)|))) hidx
  refine ⟨?_, ?_, ?_, ?_⟩
  · intro k hk1 hkm
    have hk2 : k ≤ nlags := le_trans hkm (min_le_left _ _)
    have hk3 : k ≤ (npDiff serie).length - 1 := le_trans hkm (min_le_right _ _)
    rw [hres]
    refine le_npMax ?_
    refine List.mem_map.mpr
      ⟨k - 1, List.mem_range.mpr (Nat.lt_min.mpr
        ⟨lt_of_lt_of_le (Nat.sub_lt (by omega) Nat.one_pos) hk2,
          lt_of_lt_of_le (Nat.sub_lt (by omega) Nat.one_pos) hk3⟩), ?_⟩
    have hk4 : k - 1 + 1 = k := by omega
    show |acfAt (npDiff serie) (k - 1 + 1)| = |acfAt (npDiff serie) k|
    rw [hk4]
  · rw [hres]
    dsimp only
    omega
  · rw [hres]
    dsimp only
    omega
  · rw [hres]
    rw [hval] at hgetD
    dsimp only
    exact hgetD.symm

/-- C4 witness: for the series `[0, 1, 0, 1, 0]` the returned lag attains
the returned maximum absolute autocorrelation of the difference. -/
theorem calcula_autocorr_diff_max_witness :
    |acfAt (npDiff [0, 1, 0, 1, 0]) (calcula_autocorr_diff [0, 1, 0, 1, 0] 360).2|
      = (calcula_autocorr_diff [0, 1, 0, 1, 0] 360).1 :=
  (calcula_autocorr_diff_max [0, 1, 0, 1, 0] 360 (by norm_num)
    (by norm_num [npDiff]) (by norm_num [allEqHead, npDiff]) (by norm_num)).2.2.2

/-! ### Helper lemmas about densification -/

/-- `uniqueFirst` never repeats a value. -/
theorem uniqueFirst_nodup (l : List String) : (uniqueFirst l).Nodup := by
  simpa [uniqueFirst] using (List.nodup_dedup l.reverse)

/-- `uniqueFirst` has the same members as its input. -/
theorem mem_uniqueFirst {l : List String} {a : String} :
    a ∈ uniqueFirst l ↔ a ∈ l := by
  simp [uniqueFirst, List.mem_dedup]

/-- `uniqueFirst` enumerates each distinct value exactly once. -/
theorem uniqueFirst_length (l : List String) :
    (uniqueFirst l).length = l.toFinset.card := by
  have hset : (uniqueFirst l).toFinset = l.toFinset := by
    ext a
    simp [List.mem_toFinset, mem_uniqueFirst]
  rw [← List.toFinset_card_of_nodup (uniqueFirst_nodup l), hset]

/-- The minute axis has one entry per minute of the inclusive global
span. -/
theorem todosMinutos_length (df : List Obs) :
    (todosMinutos df).length =
      natMaxD (df.map (·.minuto)) - natMinD (df.map (·.minuto)) + 1 := by
  simp [todosMinutos]

/-- Unfolding a successful densification. -/
theorem extrair_dados_dense_eq_some {df g : List Obs}
    (h : extrair_dados_dense df = some g) :
    g = (todosMinutos df).flatMap (fun t =>
        (uniqueFirst (df.map (·.cd_opr))).map (fun op =>
          { minuto := t, cd_opr := op, qtd := lookupQtd df t op }))
    ∧ (obsKeys df).Nodup ∧ df ≠ [] := by
  unfold extrair_dados_dense at h
  split_ifs at h with h1 h2
  · exact ⟨(Option.some_inj.mp h).symm, h2, by simpa [List.isEmpty_iff] using h1⟩

/-- A pair absent from the observation index looks up to the zero fill. -/
theorem lookupQtd_eq_zero {df : List Obs} {t : Nat} {op : String}
    (h : (t, op) ∉ obsKeys df) : lookupQtd df t op = 0 := by
  have hfind : df.find? (fun r => r.minuto == t && r.cd_opr == op) = none := by
    rw [List.find?_eq_none]
    intro r hr hpred
    refine h (List.mem_map.mpr ⟨r, hr, ?_⟩)
    have hp := hpred
    simp only [Bool.and_eq_true, beq_iff_eq] at hp
    rw [hp.1, hp.2]
  rw [lookupQtd, hfind]

/-! ### C1: densification completeness -/

/-- C1: a successful densification has exactly
(number of distinct operators) x (number of minutes in the global span)
rows, and every pair absent from the parsed input appears with count
exactly 0. -/
theorem extrair_dados_dense_complete (df g : List Obs)
    (h : extrair_dados_dense df = some g) :
    g.length = (df.map (·.cd_opr)).toFinset.card *
      (natMaxD (df.map (·.minuto)) - natMinD (df.map (·.minuto)) + 1)
    ∧ (∀ r ∈ g, (r.minuto, r.cd_opr) ∉ obsKeys df → r.qtd = 0)
    ∧ (∀ t op, t ∈ todosMinutos df → op ∈ df.map (·.cd_opr) →
        (t, op) ∉ obsKeys df → Obs.mk t op 0 ∈ g) := by
  obtain ⟨hg, _, _⟩ := extrair_dados_dense_eq_some h
  refine ⟨?_, ?_, ?_⟩
  · rw [hg, List.length_flatMap]
    have hmap : (todosMinutos df).map (List.length ∘ (fun t =>
        (uniqueFirst (df.map (·.cd_opr))).map (fun op =>
          Obs.mk t op (lookupQtd df t op)))) =
        List.replicate (todosMinutos df).length
          (uniqueFirst (df.map (·.cd_opr))).length := by
      rw [← List.map_const]
      exact List.map_congr_left (fun t _ => by simp [Function.comp])
    rw [hmap, List.sum_replicate, smul_eq_mul, todosMinutos_length,
      uniqueFirst_length, Nat.mul_comm]
  · intro r hr hkey
    rw [hg] at hr
    obtain ⟨t, _, hr2⟩ := List.mem_flatMap.mp hr
    obtain ⟨op, _, hr3⟩ := List.mem_map.mp hr2
    rw [← hr3] at hkey ⊢
    exact lookupQtd_eq_zero hkey
  · intro t op ht hop hkey
    rw [hg]
    refine List.mem_flatMap.mpr ⟨t, ht, List.mem_map.mpr
      ⟨op, mem_uniqueFirst.mpr hop, ?_⟩⟩
    rw [lookupQtd_eq_zero hkey]

/-- C1 witness: densifying `df1` yields the 1 x 3 grid `g1`, and the gap
minute appears with count 0. -/
theorem extrair_dados_dense_complete_witness :
    extrair_dados_dense df1 = some g1
    ∧ g1.length = (df1.map (·.cd_opr)).toFinset.card *
        (natMaxD (df1.map (·.minuto)) - natMinD (df1.map (·.minuto)) + 1)
    ∧ Obs.mk 1 "a" 0 ∈ g1 :=
  ⟨by decide, (extrair_dados_dense_complete df1 g1 (by decide)).1,
    (extrair_dados_dense_complete df1 g1 (by decide)).2.2 1 "a"
      (by decide) (by decide) (by decide)⟩

/-! ### C2: duplicate (timestamp, operator) pairs -/

/-- C2 counterexample: on an input with a duplicated
`(MINUTO, CD_OPR)` pair, densification does not succeed at all — the
uncaught `ValueError` of `reindex` on a duplicate index (modelled by
`none`) aborts `extrair_dados` instead of any last-write
deduplication. -/
theorem extrair_dados_dense_dup_counterexample :
    extrair_dados_dense [⟨0, "a", 1⟩, ⟨0, "a", 2⟩] = none := by decide

/-- C2 amended: any input whose `(MINUTO, CD_OPR)` index is not
duplicate-free makes densification fail (no dense grid is produced). -/
theorem extrair_dados_dense_dup (df : List Obs)
    (hdup : ¬ (obsKeys df).Nodup) : extrair_dados_dense df = none := by
  unfold extrair_dados_dense
  split_ifs with h1
  · rfl
  · rfl

/-- C2 amended witness: the duplicated table indeed has a duplicated
index and fails to densify. -/
theorem extrair_dados_dense_dup_witness :
    ¬ (obsKeys [⟨0, "a", 1⟩, ⟨0, "a", 2⟩]).Nodup
    ∧ extrair_dados_dense [⟨0, "a", 1⟩, ⟨0, "a", 2⟩] = none :=
  ⟨by decide, extrair_dados_dense_dup [⟨0, "a", 1⟩, ⟨0, "a", 2⟩] (by decide)⟩

/-! ### C10: uniform group lengths over the dense grid -/

/-- The length of a per-operator series is the number of rows carrying
that operator (sorting within the group preserves length). -/
theorem groupSerie_length (dados : List Obs) (op : String) :
    (groupSerie dados op).length =
      ((dados.filter (fun r => r.cd_opr == op)).length) := by
  rw [groupSerie, List.length_map, (List.perm_insertionSort _ _).length_eq]

/-- In a nodup list, the rows equal to a member filter to a singleton. -/
theorem filter_beq_length_of_nodup {l : List String} {a : String}
    (h : l.Nodup) (ha : a ∈ l) : (l.filter (· == a)).length = 1 := by
  rw [← List.countP_eq_length_filter]
  have hcount := List.count_eq_one_of_mem h ha
  simpa [List.count] using hcount

/-- C10: in a successful densification every operator present in the
grid owns a series of exactly the global number of minutes; hence the
minimum-length-10 filter of `calcular_metricas_por_processo` either
keeps every operator of the grid or skips every operator of the grid. -/
theorem extrair_dados_dense_uniform (df g : List Obs)
    (h : extrair_dados_dense df = some g) :
    (∀ op ∈ g.map (·.cd_opr),
      (groupSerie g op).length =
        natMaxD (df.map (·.minuto)) - natMinD (df.map (·.minuto)) + 1)
    ∧ ((∀ op ∈ g.map (·.cd_opr), ¬ (groupSerie g op).length < 10)
      ∨ (∀ op ∈ g.map (·.cd_opr), (groupSerie g op).length < 10)) := by
  obtain ⟨hg, _, _⟩ := extrair_dados_dense_eq_some h
  have hlen : ∀ op ∈ g.map (·.cd_opr),
      (groupSerie g op).length =
        natMaxD (df.map (·.minuto)) - natMinD (df.map (·.minuto)) + 1 := by
    intro op hop
    obtain ⟨r, hr, hrop⟩ := List.mem_map.mp hop
    have hops : op ∈ uniqueFirst (df.map (·.cd_opr)) := by
      rw [hg] at hr
      obtain ⟨t, _, hr2⟩ := List.mem_flatMap.mp hr
      obtain ⟨op2, hop2, hr3⟩ := List.mem_map.mp hr2
      rw [← hrop, ← hr3]
      exact hop2
    rw [groupSerie_length, hg, List.filter_flatMap]
    have hinner : ∀ t : Nat,
        (List.filter (fun r => r.cd_opr == op)
          ((uniqueFirst (df.map (·.cd_opr))).map (fun op2 =>
            Obs.mk t op2 (lookupQtd df t op2)))).length = 1 := by
      intro t
      rw [List.filter_map]
      rw [List.length_map]
      have hcongr : List.filter
          ((fun r => r.cd_opr == op) ∘ (fun op2 => Obs.mk t op2 (lookupQtd df t op2)))
          (uniqueFirst (df.map (·.cd_opr))) =
          List.filter (· == op) (uniqueFirst (df.map (·.cd_opr))) :=
        List.filter_congr (fun x _ => rfl)
      rw [hcongr]
      exact filter_beq_length_of_nodup (uniqueFirst_nodup _) hops
    rw [List.length_flatMap]
    have hmap : (todosMinutos df).map (List.length ∘ (fun t =>
        List.filter (fun r => r.cd_opr == op)
          ((uniqueFirst (df.map (·.cd_opr))).map (fun op2 =>
            Obs.mk t op2 (lookupQtd df t op2))))) =
        List.replicate (todosMinutos df).length 1 := by
      rw [← List.map_const]
      exact List.map_congr_left (fun t _ => hinner t)
    rw [hmap, List.sum_replicate, smul_eq_mul, Nat.mul_one, todosMinutos_length]
  refine ⟨hlen, ?_⟩
  by_cases hM : natMaxD (df.map (·.minuto)) - natMinD (df.map (·.minuto)) + 1 < 10
  · refine Or.inr (fun op hop => ?_)
    rw [hlen op hop]
    exact hM
  · refine Or.inl (fun op hop => ?_)
    rw [hlen op hop]
    exact hM

/-- C10 witness: in the dense grid of `df1` the single operator's series
spans all three minutes. -/
theorem extrair_dados_dense_uniform_witness :
    (groupSerie g1 "a").length =
      natMaxD (df1.map (·.minuto)) - natMinD (df1.map (·.minuto)) + 1 :=
  (extrair_dados_dense_uniform df1 g1 (by decide)).1 "a" (by decide)

/-! ### Helper notions and lemmas for the anomaly detector -/

/-- A transformed row passes the `dropna` test iff its score was
finite. -/
theorem scoreNotNan_transRow (r : MetRow) :
    scoreNotNan (transRow r) = goodRow r := by
  cases hs : pyMul r.cv r.autocorr_max_diff <;>
    simp [transRow, replaceRow, addScore, scoreNotNan, goodRow, scoreOf,
      replaceInfNan, PyF.isFin, hs]

/-- The rows surviving `dropna` are exactly the transformed good rows. -/
theorem valid_eq_filter (df : List MetRow) :
    (df.map (fun r => replaceRow (addScore r))).filter scoreNotNan =
      (df.filter goodRow).map transRow := by
  rw [List.filter_map]
  congr 1
  exact List.filter_congr (fun r _ => scoreNotNan_transRow r)

/-- A good row keeps its finite score through the transformation. -/
theorem rowScoreQ_transRow {r : MetRow} (h : goodRow r = true) :
    rowScoreQ (transRow r) = (scoreOf r).finVal := by
  rw [goodRow] at h
  cases hs : scoreOf r with
  | fin q =>
    rw [scoreOf] at hs
    simp [rowScoreQ, transRow, replaceRow, addScore, replaceInfNan, hs, PyF.finVal]
  | nan => rw [hs] at h; simp [PyF.isFin] at h
  | pinf => rw [hs] at h; simp [PyF.isFin] at h
  | ninf => rw [hs] at h; simp [PyF.isFin] at h

/-- The scores the detector draws statistics from are the valid
scores of the input. -/
theorem scores_eq_validScores (df : List MetRow) :
    ((df.filter goodRow).map transRow).map rowScoreQ = validScores df := by
  rw [List.map_map, validScores]
  exact List.map_congr_left (fun r hr =>
    rowScoreQ_transRow (List.mem_filter.mp hr).2)

/-- Only a product of finite floats is finite. -/
theorem pyMul_isFin {a b : PyF} (h : (pyMul a b).isFin = true) :
    a.isFin = true ∧ b.isFin = true := by
  cases a <;> cases b <;> simp_all [pyMul, PyF.isFin] <;> split_ifs at h <;> simp_all

/-- The detector's summary statistics: `none` until some score is valid,
then the median, the MAD, and the upper limit (the median itself when the
MAD vanishes). -/
theorem detectar_core_stats (df : List MetRow) (sigma : ℚ) :
    (detectar_core df sigma).2.1 =
      (if validScores df = [] then none else some (medianQ (validScores df)))
    ∧ (detectar_core df sigma).2.2.1 =
      (if validScores df = [] then none else some (calcula_mad (validScores df)))
    ∧ (detectar_core df sigma).2.2.2 =
      (if validScores df = [] then none
        else if calcula_mad (validScores df) = 0 then some (medianQ (validScores df))
        else some (medianQ (validScores df) + sigma * calcula_mad (validScores df))) := by
  by_cases hdf : df.isEmpty
  · have hnil : df = [] := List.isEmpty_iff.mp hdf
    subst hnil
    simp [detectar_core, validScores]
  · have hvalid := valid_eq_filter df
    by_cases hv : (df.filter goodRow) = []
    · have hscores : validScores df = [] := by simp [validScores, hv]
      simp [detectar_core, hdf, hvalid, hv, hscores]
    · have hne : ((df.filter goodRow).map transRow).isEmpty = false := by
        simp [List.isEmpty_iff, hv]
      have hscores : validScores df ≠ [] := by
        simp [validScores, hv]
      simp only [detectar_core, if_neg hdf, hvalid, hne, Bool.false_eq_true,
        if_false, scores_eq_validScores, if_neg hscores]
      by_cases hmad : calcula_mad (validScores df) = 0
      · simp [hmad]
      · simp [hmad]

/-- The table component of `detectar_core`: the transformed good rows,
each finished with a classification flag that touches no other
column. -/
theorem detectar_core_fst (df : List MetRow) (sigma : ℚ) :
    ∃ flag : MetRow → MetRow,
      (∀ r, (flag r).cd_opr = r.cd_opr
        ∧ (flag r).score_anomaly = r.score_anomaly
        ∧ (flag r).cv = r.cv
        ∧ (flag r).autocorr_max_diff = r.autocorr_max_diff)
      ∧ (detectar_core df sigma).1 = ((df.filter goodRow).map transRow).map flag := by
  by_cases hdf : df.isEmpty
  · have hnil : df = [] := List.isEmpty_iff.mp hdf
    subst hnil
    exact ⟨fun r => { r with anormal := some false },
      fun r => ⟨rfl, rfl, rfl, rfl⟩, by simp [detectar_core]⟩
  · have hvalid := valid_eq_filter df
    by_cases hv : (df.filter goodRow) = []
    · refine ⟨fun r => { r with anormal := some false },
        fun r => ⟨rfl, rfl, rfl, rfl⟩, ?_⟩
      simp only [detectar_core, if_neg hdf, hvalid, hv, List.map_nil]
      simp
    · have hne : ((df.filter goodRow).map transRow).isEmpty = false := by
        simp [List.isEmpty_iff, hv]
      by_cases hmad : calcula_mad (validScores df) = 0
      · refine ⟨fun r => { r with anormal := some false },
          fun r => ⟨rfl, rfl, rfl, rfl⟩, ?_⟩
        simp only [detectar_core, if_neg hdf, hvalid, hne, Bool.false_eq_true,
          if_false, scores_eq_validScores, if_pos hmad]
      · refine ⟨fun r => { r with anormal := some (decide (medianQ (validScores df) +
            sigma * calcula_mad (validScores df) < rowScoreQ r)) },
          fun r => ⟨rfl, rfl, rfl, rfl⟩, ?_⟩
        simp only [detectar_core, if_neg hdf, hvalid, hne, Bool.false_eq_true,
          if_false, scores_eq_validScores, if_neg hmad]

/-- Operators listed in the returned table are exactly those of the
good (finite-score) input rows. -/
theorem detectar_anomalias_oprs (df : List MetRow) (sigma : ℚ) (op : String) :
    op ∈ (detectar_anomalias df sigma).1.map (·.cd_opr) ↔
      op ∈ (df.filter goodRow).map (·.cd_opr) := by
  obtain ⟨flag, hflag, hfst⟩ := detectar_core_fst df sigma
  have hperm : (detectar_anomalias df sigma).1.Perm (detectar_core df sigma).1 :=
    List.perm_insertionSort _ _
  constructor
  · intro hop
    obtain ⟨r, hr, hrop⟩ := List.mem_map.mp hop
    have hr2 : r ∈ (detectar_core df sigma).1 := hperm.mem_iff.mp hr
    rw [hfst] at hr2
    obtain ⟨r2, hr3, hr4⟩ := List.mem_map.mp hr2
    obtain ⟨r3, hr5, hr6⟩ := List.mem_map.mp hr3
    refine List.mem_map.mpr ⟨r3, hr5, ?_⟩
    rw [← hrop, ← hr4, (hflag r2).1, ← hr6]
    rfl
  · intro hop
    obtain ⟨r, hr, hrop⟩ := List.mem_map.mp hop
    refine List.mem_map.mpr ⟨flag (transRow r), ?_, ?_⟩
    · refine hperm.mem_iff.mpr ?_
      rw [hfst]
      exact List.mem_map.mpr ⟨transRow r, List.mem_map.mpr ⟨r, hr, rfl⟩, rfl⟩
    · rw [(hflag (transRow r)).1, ← hrop]
      rfl

/-! ### C6: non-finite scores are excluded from detection -/

/-- C6: under unique operator codes, an input row whose anomaly score is
NaN or infinite has its operator excluded from the returned table (hence
it is never flagged anomalous), every returned row carries a finite
score, and the median and MAD are computed over the finite scores
only. -/
theorem detectar_anomalias_excludes (df : List MetRow) (sigma : ℚ)
    (hnd : (df.map (·.cd_opr)).Nodup) :
    (∀ r ∈ df, goodRow r = false →
      r.cd_opr ∉ (detectar_anomalias df sigma).1.map (·.cd_opr))
    ∧ (∀ r ∈ (detectar_anomalias df sigma).1,
        ∃ q, r.score_anomaly = some (PyF.fin q))
    ∧ (detectar_anomalias df sigma).2.1 =
        (if validScores df = [] then none else some (medianQ (validScores df)))
    ∧ (detectar_anomalias df sigma).2.2.1 =
        (if validScores df = [] then none else some (calcula_mad (validScores df))) := by
  obtain ⟨flag, hflag, hfst⟩ := detectar_core_fst df sigma
  obtain ⟨hst1, hst2, _⟩ := detectar_core_stats df sigma
  refine ⟨?_, ?_, hst1, hst2⟩
  · intro r hr hbad hop
    obtain ⟨r2, hr2, hrop⟩ := List.mem_map.mp
      ((detectar_anomalias_oprs df sigma r.cd_opr).mp hop)
    have hr3 : r2 ∈ df := (List.mem_filter.mp hr2).1
    have hgood : goodRow r2 = true := (List.mem_filter.mp hr2).2
    have : r2 = r := List.inj_on_of_nodup_map hnd hr3 hr hrop
    rw [this] at hgood
    rw [hgood] at hbad
    exact Bool.true_eq_false.mp hbad
  · intro r hr
    have hr2 : r ∈ (detectar_core df sigma).1 :=
      (List.perm_insertionSort _ _).mem_iff.mp hr
    rw [hfst] at hr2
    obtain ⟨r2, hr3, hr4⟩ := List.mem_map.mp hr2
    obtain ⟨r3, hr5, hr6⟩ := List.mem_map.mp hr3
    have hgood : goodRow r3 = true := (List.mem_filter.mp hr5).2
    rw [goodRow] at hgood
    cases hs : scoreOf r3 with
    | fin q =>
      refine ⟨q, ?_⟩
      rw [← hr4, (hflag r2).2.1, ← hr6]
      rw [scoreOf] at hs
      simp [transRow, replaceRow, addScore, hs, replaceInfNan]
    | nan => rw [hs] at hgood; simp [PyF.isFin] at hgood
    | pinf => rw [hs] at hgood; simp [PyF.isFin] at hgood
    | ninf => rw [hs] at hgood; simp [PyF.isFin] at hgood

/-- C6 witness: with an infinite-cv operator `"a"` and a finite one
`"b"`, operator `"a"` does not appear in the detection result. -/
theorem detectar_anomalias_excludes_witness :
    ("a" : String) ∉ (detectar_anomalias
      [⟨"a", PyF.fin 1, 1, PyF.pinf, none, none⟩,
       ⟨"b", PyF.fin 2, 1, PyF.fin 3, none, none⟩] 3).1.map (·.cd_opr) :=
  (detectar_anomalias_excludes
    [⟨"a", PyF.fin 1, 1, PyF.pinf, none, none⟩,
     ⟨"b", PyF.fin 2, 1, PyF.fin 3, none, none⟩] 3 (by decide)).1
    ⟨"a", PyF.fin 1, 1, PyF.pinf, none, none⟩ (List.mem_cons_self _ _) (by decide)

/-! ### C7: MAD-zero degeneracy and strict-threshold classification -/

/-- C7: once at least one finite score exists, a zero MAD classifies no
row as anomalous and reports the median itself as the upper limit;
otherwise the upper limit is `median + sigma * MAD` and a row is flagged
anomalous exactly when its score strictly exceeds that limit. -/
theorem detectar_anomalias_mad (df : List MetRow) (sigma : ℚ)
    (hval : df.filter goodRow ≠ []) :
    (calcula_mad (validScores df) = 0 →
      (detectar_anomalias df sigma).2.2.2 = some (medianQ (validScores df))
      ∧ ∀ r ∈ (detectar_anomalias df sigma).1, r.anormal = some false)
    ∧ (calcula_mad (validScores df) ≠ 0 →
      (detectar_anomalias df sigma).2.2.2 =
        some (medianQ (validScores df) + sigma * calcula_mad (validScores df))
      ∧ ∀ r ∈ (detectar_anomalias df sigma).1,
          r.anormal = some (decide (medianQ (validScores df) +
            sigma * calcula_mad (validScores df) < rowScoreQ r))) := by
  have hdf : ¬ df.isEmpty := by
    intro hE
    rw [List.isEmpty_iff.mp hE] at hval
    simp at hval
  have hvalid := valid_eq_filter df
  have hne : ((df.filter goodRow).map transRow).isEmpty = false := by
    simp [List.isEmpty_iff, hval]
  have hsort : ∀ r ∈ (detectar_anomalias df sigma).1,
      r ∈ (detectar_core df sigma).1 :=
    fun r hr => (List.perm_insertionSort _ _).mem_iff.mp hr
  obtain ⟨_, _, hst3⟩ := detectar_core_stats df sigma
  have hscoresne : validScores df ≠ [] := by
    simp [validScores, hval]
  constructor
  · intro hmad
    have hcore : (detectar_core df sigma).1 =
        ((df.filter goodRow).map transRow).map (fun r => { r with anormal := some false }) := by
      simp only [detectar_core, if_neg hdf, hvalid, hne, Bool.false_eq_true,
        if_false, scores_eq_validScores, if_pos hmad]
    refine ⟨?_, ?_⟩
    · show (detectar_core df sigma).2.2.2 = _
      rw [hst3, if_neg hscoresne, if_pos hmad]
    · intro r hr
      have hr2 := hsort r hr
      rw [hcore] at hr2
      obtain ⟨r2, _, hr3⟩ := List.mem_map.mp hr2
      rw [← hr3]
  · intro hmad
    have hcore : (detectar_core df sigma).1 =
        ((df.filter goodRow).map transRow).map (fun r =>
          { r with anormal := some (decide (medianQ (validScores df) +
            sigma * calcula_mad (validScores df) < rowScoreQ r)) }) := by
      simp only [detectar_core, if_neg hdf, hvalid, hne, Bool.false_eq_true,
        if_false, scores_eq_validScores, if_neg hmad]
    refine ⟨?_, ?_⟩
    · show (detectar_core df sigma).2.2.2 = _
      rw [hst3, if_neg hscoresne, if_neg hmad]
    · intro r hr
      have hr2 := hsort r hr
      rw [hcore] at hr2
      obtain ⟨r2, _, hr3⟩ := List.mem_map.mp hr2
      have hscore : rowScoreQ r = rowScoreQ r2 := by
        rw [← hr3]
        rfl
      rw [hscore, ← hr3]

/-- C7 witness: on scores `1, 2, 10` the MAD is non-zero and the
returned upper limit is `median + sigma * MAD`. -/
theorem detectar_anomalias_mad_witness :
    (detectar_anomalias dfW 3).2.2.2 =
      some (medianQ (validScores dfW) + 3 * calcula_mad (validScores dfW)) :=
  ((detectar_anomalias_mad dfW 3
    (by simp [dfW, goodRow, scoreOf, pyMul, PyF.isFin, List.filter_cons])).2
    (by norm_num [dfW, validScores, goodRow, scoreOf, pyMul, PyF.isFin, PyF.finVal,
      List.filter_cons, calcula_mad, medianQ, madNormConst,
      List.insertionSort, List.orderedInsert, abs])).1

/-! ### C9: detection mutates the caller's metric table -/

/-- C9: on a non-empty metric table (with no score column yet, as
`calcular_metricas_por_processo` builds it), `detectar_anomalias` leaves
the caller's table changed: a `score_anomaly` column now exists (every
surviving row carries a finite score), infinities are gone from the
float columns including `cv`, and NaN-score rows are gone — so the table
the caller holds is never the one it passed in. -/
theorem detectar_anomalias_mutates (df : List MetRow) (sigma : ℚ)
    (h1 : df ≠ []) (h2 : ∀ r ∈ df, r.score_anomaly = none) :
    detectar_anomalias_caller df sigma ≠ df
    ∧ ∀ r ∈ detectar_anomalias_caller df sigma,
        (∃ q, r.score_anomaly = some (PyF.fin q))
        ∧ r.cv.isFin = true ∧ r.autocorr_max_diff.isFin = true := by
  obtain ⟨flag, hflag, hfst⟩ := detectar_core_fst df sigma
  have hmem : ∀ r ∈ detectar_anomalias_caller df sigma,
      (∃ q, r.score_anomaly = some (PyF.fin q))
      ∧ r.cv.isFin = true ∧ r.autocorr_max_diff.isFin = true := by
    intro r hr
    rw [detectar_anomalias_caller, hfst] at hr
    obtain ⟨r2, hr2, hr3⟩ := List.mem_map.mp hr
    obtain ⟨r3, hr4, hr5⟩ := List.mem_map.mp hr2
    have hgood : goodRow r3 = true := (List.mem_filter.mp hr4).2
    rw [goodRow] at hgood
    obtain ⟨hcv, hac⟩ := @pyMul_isFin r3.cv r3.autocorr_max_diff
      (by rw [scoreOf] at hgood; exact hgood)
    refine ⟨?_, ?_, ?_⟩
    · cases hs : scoreOf r3 with
      | fin q =>
        refine ⟨q, ?_⟩
        rw [← hr3, (hflag r2).2.1, ← hr5]
        rw [scoreOf] at hs
        simp [transRow, replaceRow, addScore, hs, replaceInfNan]
      | nan => rw [hs] at hgood; simp [PyF.isFin] at hgood
      | pinf => rw [hs] at hgood; simp [PyF.isFin] at hgood
      | ninf => rw [hs] at hgood; simp [PyF.isFin] at hgood
    · rw [← hr3, (hflag r2).2.2.1, ← hr5]
      cases hcvv : r3.cv with
      | fin q => simp [transRow, replaceRow, addScore, hcvv, replaceInfNan, PyF.isFin]
      | nan => rw [hcvv] at hcv; simp [PyF.isFin] at hcv
      | pinf => rw [hcvv] at hcv; simp [PyF.isFin] at hcv
      | ninf => rw [hcvv] at hcv; simp [PyF.isFin] at hcv
    · rw [← hr3, (hflag r2).2.2.2, ← hr5]
      cases hacc : r3.autocorr_max_diff with
      | fin q => simp [transRow, replaceRow, addScore, hacc, replaceInfNan, PyF.isFin]
      | nan => rw [hacc] at hac; simp [PyF.isFin] at hac
      | pinf => rw [hacc] at hac; simp [PyF.isFin] at hac
      | ninf => rw [hacc] at hac; simp [PyF.isFin] at hac
  refine ⟨?_, hmem⟩
  intro heq
  cases hdf : df with
  | nil => exact h1 hdf
  | cons r0 t =>
    have hr0 : r0 ∈ df := by rw [hdf]; exact List.mem_cons_self _ _
    have hr0c : r0 ∈ detectar_anomalias_caller df sigma := by rw [heq]; exact hr0
    obtain ⟨⟨q, hq⟩, _, _⟩ := hmem r0 hr0c
    rw [h2 r0 hr0] at hq
    cases hq

/-- C9 witness: a one-row score-free table is not left unchanged. -/
theorem detectar_anomalias_mutates_witness :
    detectar_anomalias_caller [⟨"a", PyF.fin 1, 1, PyF.fin 1, none, none⟩] 3 ≠
      [⟨"a", PyF.fin 1, 1, PyF.fin 1, none, none⟩] :=
  (detectar_anomalias_mutates [⟨"a", PyF.fin 1, 1, PyF.fin 1, none, none⟩] 3
    (by decide) (by decide)).1

/-! ### C8: the autocorrelation lag stored in the metric table -/

/-- `calcula_autocorr_diff` either reports a 1-indexed lag or the full
`(0, 0)` degenerate sentinel. -/
theorem calcula_autocorr_diff_cases (serie : List ℚ) (nlags : Nat) :
    1 ≤ (calcula_autocorr_diff serie nlags).2
    ∨ calcula_autocorr_diff serie nlags = (0, 0) := by
  simp only [calcula_autocorr_diff]
  split_ifs <;> simp

/-- C8 counterexample: the metric table of the constant series `dados10`
contains a record whose `autocorr_lag` is `0`, not `>= 1` — the `(0, 0)`
degenerate result of `calcula_autocorr_diff` is stored unchanged. -/
theorem calcular_metricas_lag_counterexample :
    ¬ (∀ r ∈ calcular_metricas_por_processo dados10, 1 ≤ r.autocorr_lag) := by
  intro hall
  have hmap : (calcular_metricas_por_processo dados10).map
      (fun r => r.autocorr_lag) = [0] := by
    norm_num [calcular_metricas_por_processo, dados10, groupSerie, uniqueFirst,
      List.insertionSort, List.orderedInsert, calcula_autocorr_diff, npDiff,
      allEqHead, List.filterMap_cons, List.filter_cons, List.dedup_cons_of_mem,
      List.dedup_cons_of_not_mem]
  cases hL : calcular_metricas_por_processo dados10 with
  | nil => rw [hL] at hmap; simp at hmap
  | cons r t =>
    rw [hL] at hmap
    simp only [List.map_cons, List.cons.injEq] at hmap
    have hr1 := hall r (by rw [hL]; exact List.mem_cons_self _ _)
    omega

/-- C8 amended: every record of the metric table has `autocorr_lag >= 1`
unless it carries the degenerate sentinel, in which case both the lag
and the maximum are exactly `0`. -/
theorem calcular_metricas_lag_invariant (dados : List Obs) :
    ∀ r ∈ calcular_metricas_por_processo dados,
      1 ≤ r.autocorr_lag ∨ (r.autocorr_lag = 0 ∧ r.autocorr_max_diff = 0) := by
  intro r hr
  rw [calcular_metricas_por_processo] at hr
  obtain ⟨op, _, hsome⟩ := List.mem_filterMap.mp hr
  dsimp only at hsome
  by_cases hlen : (groupSerie dados op).length < 10
  · rw [if_pos hlen] at hsome
    cases hsome
  · rw [if_neg hlen] at hsome
    have hr2 := Option.some_inj.mp hsome
    rcases calcula_autocorr_diff_cases (groupSerie dados op) 360 with h1 | h0
    · left
      rw [← hr2]
      exact h1
    · right
      rw [← hr2]
      refine ⟨?_, ?_⟩
      · show (calcula_autocorr_diff (groupSerie dados op) 360).2 = 0
        rw [h0]
      · show (calcula_autocorr_diff (groupSerie dados op) 360).1 = 0
        rw [h0]

/-- C8 amended witness: the record computed from `dados10` satisfies the
lag invariant (through its degenerate branch). -/
theorem calcular_metricas_lag_invariant_witness :
    1 ≤ rec10.autocorr_lag
    ∨ (rec10.autocorr_lag = 0 ∧ rec10.autocorr_max_diff = 0) :=
  calcular_metricas_lag_invariant dados10 rec10
    (by rw [show calcular_metricas_por_processo dados10 = [rec10] from rfl]
        exact List.mem_cons_self _ _)
